import Mathlib

/-!
# Verification of the lila-websocket dispatch gateway

A shallow embedding, in Lean 4, of the parts of the `lila-websocket` Rust
sources that the specification claims talk about:

* `src/model.rs` — identifier validation (`UserId::new`);
* `src/analysis.rs` — the `piotr` square packing, the `uci_char_pair`
  move encoding, and `GetOpening::respond`;
* `src/ipc.rs` — the `LilaIn` messages published to the backend;
* `src/main.rs` — the shared dispatch state (`App`), the connection
  close handler (`Socket::on_close` together with `UserSocket::set_user`),
  the text-frame handler (`Socket::on_message`) for the ping fast path,
  `startWatching` and `moveLat` frames, and the `App::received` handler
  for backend `mlat` messages.

Rust `HashMap`s are embedded as association lists with unique keys
(lookup / insert-or-replace / remove), `HashSet<Sender>` as duplicate-free
lists, `Vec<Sender>` as lists of sender tokens (a `Sender`'s `token()` is
the identity used by the source for membership tests), machine integers as
`Nat` / `Int` (the `u32` and `i32` values handled here never reach the
wrap-around range except `connection_count`, whose relaxed underflow the
source itself tolerates and saturates on read).
-/

set_option autoImplicit false

namespace LilaWs

/-! ## Association-list maps (embedding of `HashMap` as used by the source) -/

def lookupA {κ α : Type} [DecidableEq κ] : List (κ × α) → κ → Option α
  | [], _ => none
  | (k, v) :: rest, key => if k = key then some v else lookupA rest key

def insertA {κ α : Type} [DecidableEq κ] : List (κ × α) → κ → α → List (κ × α)
  | [], key, v => [(key, v)]
  | (k, w) :: rest, key, v =>
    if k = key then (k, v) :: rest else (k, w) :: insertA rest key v

def removeA {κ α : Type} [DecidableEq κ] : List (κ × α) → κ → List (κ × α)
  | [], _ => []
  | (k, w) :: rest, key => if k = key then rest else (k, w) :: removeA rest key

theorem lookupA_insertA_self {κ α : Type} [DecidableEq κ]
    (m : List (κ × α)) (k : κ) (v : α) : lookupA (insertA m k v) k = some v := by
  induction m with
  | nil => simp [insertA, lookupA]
  | cons hd tl ih =>
    obtain ⟨k2, w⟩ := hd
    by_cases h : k2 = k
    · simp [insertA, lookupA, h]
    · simp [insertA, lookupA, h, ih]

/-! ## `src/model.rs` — `UserId::new`

Rust's `str::len` is the UTF-8 byte length; `rustStrLen` computes it from
the character sequence.  `to_ascii_lower` embeds `str::to_lowercase` on the
characters `UserId::new` accepts (all ASCII, where Unicode lowercasing
agrees with ASCII lowercasing). -/

def is_ascii_alphanumeric (c : Char) : Bool :=
  (48 ≤ c.toNat && c.toNat ≤ 57) ||
  (65 ≤ c.toNat && c.toNat ≤ 90) ||
  (97 ≤ c.toNat && c.toNat ≤ 122)

def rustCharLen (c : Char) : Nat :=
  if c.toNat < 128 then 1
  else if c.toNat < 2048 then 2
  else if c.toNat < 65536 then 3
  else 4

def rustStrLen (s : List Char) : Nat := (s.map rustCharLen).sum

def to_ascii_lower (c : Char) : Char :=
  if 65 ≤ c.toNat ∧ c.toNat ≤ 90 then Char.ofNat (c.toNat + 32) else c

def UserId.new (inner : List Char) : Option (List Char) :=
  if rustStrLen inner ≠ 0 && rustStrLen inner ≤ 30 &&
     inner.all (fun c => is_ascii_alphanumeric c || c = '-' || c = '_')
  then some (inner.map to_ascii_lower)
  else none

/-- A lowercase ASCII alphanumeric, `-` or `_` (the character set claim C5
asserts for the input). -/
def lower_char_ok (c : Char) : Bool :=
  (97 ≤ c.toNat && c.toNat ≤ 122) ||
  (48 ≤ c.toNat && c.toNat ≤ 57) || c = '-' || c = '_'

/-- The validity predicate exactly as claim C5 words it: between 1 and 30
characters, every character a lowercase ASCII alphanumeric, `-` or `_`. -/
def claimed_valid_C5 (s : List Char) : Bool :=
  1 ≤ s.length && s.length ≤ 30 && s.all lower_char_ok

/-! ## `src/analysis.rs` — `piotr` -/

/-- `piotr` from `src/analysis.rs`.  The square constants compared against
are indices: `C4 = 26`, `E7 = 52`, `G8 = 62` (shakmaty squares are
`file + 8 * rank`, `A1 = 0` … `H8 = 63`). -/
def piotr (sq : Nat) : Char :=
  if sq < 26 then Char.ofNat (97 + sq)
  else if sq < 52 then Char.ofNat (65 + (sq - 26))
  else if sq < 62 then Char.ofNat (48 + (sq - 52))
  else if sq = 62 then '!'
  else '?'

/-- The range table exactly as claim C6 words it: `0..27` offset from `'a'`,
`28..51` offset from `'A'`, `52..61` offset from `'0'`, `62` and `63`
special. -/
def piotr_ranges_claimed (sq : Nat) : Char :=
  if sq < 28 then Char.ofNat (97 + sq)
  else if sq < 52 then Char.ofNat (65 + (sq - 28))
  else if sq < 62 then Char.ofNat (48 + (sq - 52))
  else if sq = 62 then '!'
  else '?'

/-! ## `src/analysis.rs` — `uci_char_pair` -/

inductive Role where
  | king | queen | rook | bishop | knight | pawn
  deriving DecidableEq, Repr

/-- `shakmaty::uci::Uci`, with squares as indices `0..63`. -/
inductive Uci where
  | normal (src dst : Fin 64) (promotion : Option Role)
  | put (dst : Fin 64) (role : Role)
  | null
  deriving DecidableEq, Repr

def square_id (sq : Fin 64) : Char := Char.ofNat (sq.val + 35)

def drop_role_id (role : Role) : Char :=
  Char.ofNat (35 + 64 + 8 * 5 +
    match role with
    | .king => 0  -- cannot be dropped
    | .queen => 0
    | .rook => 1
    | .bishop => 2
    | .knight => 3
    | .pawn => 4)

def promotion_id (file : Fin 8) (role : Role) : Char :=
  Char.ofNat (35 + 64 +
    (match role with
     | .queen => 0
     | .rook => 1
     | .bishop => 2
     | .knight => 3
     | .king => 4
     | .pawn => 0) * 8 + file.val)

/-- `Square::file`: shakmaty square index modulo 8. -/
def file_of (sq : Fin 64) : Fin 8 := ⟨sq.val % 8, Nat.mod_lt _ (by omega)⟩

def uci_char_pair : Uci → List Char
  | .normal src dst none => [square_id src, square_id dst]
  | .normal src dst (some role) => [square_id src, promotion_id (file_of dst) role]
  | .put dst role => [square_id dst, drop_role_id role]
  | .null => [Char.ofNat 35, Char.ofNat 35]

/-- Promotion ranks as listed by claim C8 (queen=0, rook=1, bishop=2,
knight=3, king=4); promotion to pawn is not covered by the claim. -/
def promotion_rank_claimed : Role → Option Nat
  | .queen => some 0
  | .rook => some 1
  | .bishop => some 2
  | .knight => some 3
  | .king => some 4
  | .pawn => none

/-- Drop ranks as listed by claim C8 (queen=0, rook=1, bishop=2, knight=3,
pawn=4); a king cannot be dropped and is not covered by the claim. -/
def drop_rank_claimed : Role → Option Nat
  | .queen => some 0
  | .rook => some 1
  | .bishop => some 2
  | .knight => some 3
  | .pawn => some 4
  | .king => none

/-! ## `src/analysis.rs` — `GetOpening::respond` -/

inductive VariantKey where
  | standard | fromPosition | chess960 | antichess | kingOfTheHill
  | threeCheck | atomic | horde | racingKings | crazyhouse
  deriving DecidableEq, Repr

inductive Variant where
  | standard | antichess | kingOfTheHill | threeCheck
  | atomic | horde | racingKings | crazyhouse
  deriving DecidableEq, Repr

/-- `impl From<VariantKey> for Variant` from `src/analysis.rs`. -/
def Variant.ofKey : VariantKey → Variant
  | .standard => .standard
  | .fromPosition => .standard
  | .chess960 => .standard
  | .antichess => .antichess
  | .kingOfTheHill => .kingOfTheHill
  | .threeCheck => .threeCheck
  | .atomic => .atomic
  | .horde => .horde
  | .racingKings => .racingKings
  | .crazyhouse => .crazyhouse

def Variant.is_opening_sensible : Variant → Bool
  | .standard => true
  | .crazyhouse => true
  | .threeCheck => true
  | .kingOfTheHill => true
  | _ => false

structure Opening where
  eco : String
  name : String
  deriving DecidableEq, Repr

def wordsAux : List Char → List Char → List (List Char)
  | [], acc => [acc.reverse]
  | c :: rest, acc =>
    if c = ' ' then acc.reverse :: wordsAux rest [] else wordsAux rest (c :: acc)

/-- Split on single spaces, keeping empty fields (like Rust `str::split(' ')`). -/
def words (s : List Char) : List (List Char) := wordsAux s []

def joinSpaces : List (List Char) → List Char
  | [] => []
  | [w] => w
  | w :: ws => w ++ ' ' :: joinSpaces ws

/-- Modelled from the spec: the first four space-separated fields of a FEN
form its EPD.  (The real code round-trips the fen through the external
`shakmaty` FEN parser and re-serializes the EPD; the parser and the
build-generated `opening_db` module are not under `src/`, and the spec
describes the lookup key as "the first four space-separated fields".) -/
def epd_of_fen (fen : List Char) : List Char := joinSpaces ((words fen).take 4)

/-- Modelled from the spec: the static opening database is a finite map
from EPD to `Opening`; `lookup_opening` keys it by the EPD of the fen. -/
def lookup_opening (db : List (List Char × Opening)) (fen : List Char) : Option Opening :=
  lookupA db (epd_of_fen fen)

structure GetOpening where
  variant : Option VariantKey
  path : String
  fen : List Char

structure OpeningResponse where
  path : String
  opening : Opening
  deriving DecidableEq, Repr

/-- `GetOpening::respond` from `src/analysis.rs`, parameterized by the
opening database it is linked against. -/
def GetOpening.respond (db : List (List Char × Opening)) (req : GetOpening) :
    Option OpeningResponse :=
  let variant := Variant.ofKey (req.variant.getD VariantKey.standard)
  if variant.is_opening_sensible then
    (lookup_opening db req.fen).map (fun o => { path := req.path, opening := o })
  else none

/-! ## `src/ipc.rs` — messages published to the backend -/

inductive LilaIn where
  | connect (uid : String)
  | disconnect (uid : String)
  | disconnectAll
  | notified (uid : String)
  | watch (game : String)
  | unwatch (game : String)
  | connections (n : Nat)
  | lag (uid : String) (n : Nat)
  | friends (uid : String)
  deriving DecidableEq, Repr

/-- The `Display` rendering of `LilaIn` from `src/ipc.rs` (the line written
to the up channel). -/
def LilaIn.toWire : LilaIn → String
  | .connect uid => "connect " ++ uid
  | .disconnect uid => "disconnect " ++ uid
  | .disconnectAll => "disconnect/all"
  | .notified uid => "notified " ++ uid
  | .watch game => "watch " ++ game
  | .unwatch game => "unwatch " ++ game
  | .connections n => "connections " ++ toString n
  | .lag uid n => "lags " ++ uid ++ ":" ++ toString n ++ ","
  | .friends uid => "friends " ++ uid

/-! ## `src/main.rs` — shared state of the dispatch engine

`Sender` handles are represented by their `token()` (a `Nat`); the source
itself compares senders by token in the `Vec` indexes and by hash/equality
in the `HashSet` indexes. -/

inductive Flag where
  | simul | tournament
  deriving DecidableEq, Repr

inductive Endpoint where
  | site | lobby
  deriving DecidableEq, Repr

inductive SocketAuth where
  | requested
  | authenticated (uid : String)
  | anonymous
  deriving DecidableEq, Repr

structure UserSocket where
  sender : Nat
  sri : String
  endpoint : Endpoint
  auth : SocketAuth
  pending_notified : Bool
  pending_following_onlines : Bool
  deriving DecidableEq, Repr

structure WatchedGame where
  fen : String
  lm : String
  deriving DecidableEq, Repr

/-- The process-wide shared state (`struct App` in `src/main.rs`).
`flags` is the two-element array of `HashSet<Sender>`, split into its two
cells.  `connection_count` is the relaxed `AtomicI32`. -/
structure App where
  by_user : List (String × List Nat)
  by_game : List (String × List Nat)
  by_sri : List (String × List Nat)
  by_id : List (Nat × UserSocket)
  watched_games : List (String × WatchedGame)
  flags_simul : List Nat
  flags_tournament : List Nat
  mlat : Nat
  round_count : Nat
  member_count : Nat
  watching_mlat : List Nat
  connection_count : Int
  deriving DecidableEq, Repr

/-- `App::new`: everything empty, `mlat` initialized to `u32::max_value()`. -/
def App.new : App :=
  { by_user := []
    by_game := []
    by_sri := []
    by_id := []
    watched_games := []
    flags_simul := []
    flags_tournament := []
    mlat := 4294967295
    round_count := 0
    member_count := 0
    watching_mlat := []
    connection_count := 0 }

def flagSet (app : App) : Flag → List Nat
  | .simul => app.flags_simul
  | .tournament => app.flags_tournament

def setFlag (app : App) : Flag → List Nat → App
  | .simul, v => { app with flags_simul := v }
  | .tournament, v => { app with flags_tournament := v }

/-- The per-connection handler state (`struct Socket` in `src/main.rs`);
only the fields the modelled handlers read. -/
structure Socket where
  socket_id : Nat
  sender : Nat
  endpoint : Option Endpoint
  watching : List String
  flag : Option Flag
  sri : Option String
  deriving DecidableEq, Repr

/-- `Vec::swap_remove(i)`: replace the element at `i` with the last
element, then drop the last element. -/
def swapRemoveAt (l : List Nat) (i : Nat) : List Nat :=
  (l.set i ((l.getLast?).getD 0)).dropLast

/-- `entry.iter().position(|s| s.token() == tok)` followed by
`entry.swap_remove(idx)`.  When the token is absent the source panics on
`expect`; under the index invariants that is unreachable, and the model
leaves the list unchanged. -/
def removeSenderVec (l : List Nat) (tok : Nat) : List Nat :=
  match l.findIdx? (fun s => s == tok) with
  | some i => swapRemoveAt l i
  | none => l

/-! ## `UserSocket` handlers (`src/main.rs`) -/

/-- `UserSocket::on_notified`. -/
def on_notified (us : UserSocket) : UserSocket × List LilaIn :=
  let us := { us with pending_notified := false }
  match us.auth with
  | .requested => ({ us with pending_notified := true }, [])
  | .authenticated uid => (us, [LilaIn.notified uid])
  | .anonymous => (us, [])  -- log::warn!("anon notified")

/-- `UserSocket::on_following_onlines`. -/
def on_following_onlines (us : UserSocket) : UserSocket × List LilaIn :=
  let us := { us with pending_following_onlines := false }
  match us.auth with
  | .requested => ({ us with pending_following_onlines := true }, [])
  | .authenticated uid => (us, [LilaIn.friends uid])
  | .anonymous => (us, [])  -- log::debug!("anon following_onlines")

structure SetUserResult where
  app : App
  socket : UserSocket
  published : List LilaIn
  deriving DecidableEq, Repr

/-- `UserSocket::set_user`.  First the "Connected." phase inserts into
`by_user` when a uid is given (publishing `Connect` on first insert), then
the old authentication state (`mem::replace`) is examined: a previously
authenticated socket is removed from `by_user` (publishing `Disconnect`
when the entry empties), a finished authentication request replays the
deferred notified / following_onlines messages. -/
def set_user (app : App) (us : UserSocket) (maybe_uid : Option String) : SetUserResult :=
  let step1 : App × List LilaIn × SocketAuth :=
    match maybe_uid with
    | some uid =>
      match lookupA app.by_user uid with
      | some v =>
        ({ app with by_user := insertA app.by_user uid (v ++ [us.sender]) },
         [], SocketAuth.authenticated uid)
      | none =>
        ({ app with by_user := insertA app.by_user uid [us.sender] },
         [LilaIn.connect uid], SocketAuth.authenticated uid)
    | none => (app, [], SocketAuth.anonymous)
  let app := step1.1
  let pubConnect := step1.2.1
  let auth := step1.2.2
  match us.auth with
  | .authenticated uid =>
    -- Disconnected.
    let entry := (lookupA app.by_user uid).getD []
    let entry := removeSenderVec entry us.sender
    if entry.isEmpty then
      { app := { app with by_user := removeA app.by_user uid }
        socket := { us with auth := auth }
        published := pubConnect ++ [LilaIn.disconnect uid] }
    else
      { app := { app with by_user := insertA app.by_user uid entry }
        socket := { us with auth := auth }
        published := pubConnect }
  | .requested =>
    -- Authentication request finished.
    let us := { us with auth := auth }
    let r1 := if us.pending_notified then on_notified us else (us, [])
    let us := r1.1
    let r2 := if us.pending_following_onlines then on_following_onlines us else (us, [])
    { app := app, socket := r2.1, published := pubConnect ++ r1.2 ++ r2.2 }
  | .anonymous =>
    { app := app, socket := { us with auth := auth }, published := pubConnect }

/-! ## `Socket::on_close` (`src/main.rs`) -/

structure CloseResult where
  app : App
  published : List LilaIn
  deriving DecidableEq, Repr

/-- `Handler::on_close` for `Socket`.  In source order: decrement
`connection_count`, cancel the idle timeout (real-time, not modelled),
clean `by_sri`, remove the `by_id` entry and run `set_user(None)` on it,
clean `by_game` for every watched game (publishing `Unwatch` when a
watcher list empties), and remove the sender from the selected flag set.
`watching_mlat` is not touched by the source. -/
def on_close (app : App) (sock : Socket) : CloseResult :=
  let app := { app with connection_count := app.connection_count - 1 }
  -- Update by_sri.
  let app :=
    match sock.sri with
    | some sri =>
      let senders := (lookupA app.by_sri sri).getD []
      let senders := removeSenderVec senders sock.sender
      if senders.isEmpty then { app with by_sri := removeA app.by_sri sri }
      else { app with by_sri := insertA app.by_sri sri senders }
    | none => app
  -- Update by_id (the source panics when the entry is missing).
  let step2 : App × List LilaIn :=
    match lookupA app.by_id sock.socket_id with
    | some us =>
      let app := { app with by_id := removeA app.by_id sock.socket_id }
      let r := set_user app us none
      (r.app, r.published)
    | none => (app, [])
  let app := step2.1
  let pubUser := step2.2
  -- Update by_game.
  let step3 : App × List LilaIn :=
    sock.watching.foldl
      (fun acc game =>
        let app := acc.1
        let watchers := (lookupA app.by_game game).getD []
        let watchers := removeSenderVec watchers sock.sender
        if watchers.isEmpty then
          ({ app with by_game := removeA app.by_game game },
           acc.2 ++ [LilaIn.unwatch game])
        else
          ({ app with by_game := insertA app.by_game game watchers }, acc.2))
      (app, [])
  let app := step3.1
  let pubGames := step3.2
  -- Unsubscribe from flag.
  let app :=
    match sock.flag with
    | some f => setFlag app f ((flagSet app f).erase sock.sender)
    | none => app
  { app := app, published := pubUser ++ pubGames }

/-! ## `Socket::on_message` (`src/main.rs`) -/

/-- The JSON frames the gateway sends to a browser, as serde serializes
them (`SocketIn::to_json_string`). -/
def fenJson (game fen lm : String) : String :=
  "\x7b\"t\":\"fen\",\"d\":\x7b\"id\":\"" ++ game ++ "\",\"fen\":\"" ++ fen ++
    "\",\"lm\":\"" ++ lm ++ "\"\x7d\x7d"

def mlatJson (m : Nat) : String :=
  "\x7b\"t\":\"mlat\",\"d\":" ++ toString m ++ "\x7d"

/-- The lobby fast-path ping reply,
`format!(r#"{{"t":"n","r":{},"d":{}}}"#, round_count, member_count)`. -/
def lobbyPingReply (app : App) : String :=
  "\x7b\"t\":\"n\",\"r\":" ++ toString app.round_count ++
    ",\"d\":" ++ toString app.member_count ++ "\x7d"

inductive CloseCode where
  | normal | away | size | protocol
  deriving DecidableEq, Repr

/-- What one `on_message` invocation does: the updated shared state, the
updated handler state, the frames sent (sender token, text), the messages
published to the backend, and whether the socket was closed. -/
structure HandlerResult where
  app : App
  socket : Socket
  sent : List (Nat × String)
  published : List LilaIn
  close : Option CloseCode
  deriving DecidableEq, Repr

/-- The loop body of the `StartWatching` arm of `Socket::on_message`:
`self.watching.insert(game)` short-circuits already-watched games;
otherwise the cached game state is sent if present, and the sender is
added to `by_game[game]`, publishing `Watch` when the entry is created. -/
def startWatchingOne (app : App) (sock : Socket) (game : String) : HandlerResult :=
  if game ∈ sock.watching then
    { app := app, socket := sock, sent := [], published := [], close := none }
  else
    let sock := { sock with watching := game :: sock.watching }
    let sent :=
      match lookupA app.watched_games game with
      | some wg => [(sock.sender, fenJson game wg.fen wg.lm)]
      | none => []
    match lookupA app.by_game game with
    | some v =>
      { app := { app with by_game := insertA app.by_game game (v ++ [sock.sender]) }
        socket := sock, sent := sent, published := [], close := none }
    | none =>
      { app := { app with by_game := insertA app.by_game game [sock.sender] }
        socket := sock, sent := sent, published := [LilaIn.watch game], close := none }

/-- The client frames (`enum SocketOut`) whose arms are modelled; the
analysis arms are pure calls into `src/analysis.rs` handled separately. -/
inductive SocketOut where
  | ping (l : Option Int)
  | startWatching (d : List String)
  | moveLatency (d : Bool)
  deriving DecidableEq, Repr

/-- `Handler::on_message` for `Socket` (rate limiting and the idle-timer
refresh are timing behaviour and not modelled).  `text` is the text frame;
`parsed` is serde's parse of it (reached only past the `"null"` fast path
and the size guard; `none` embeds a parse failure, which closes the
socket with the protocol code). -/
def on_message (app : App) (sock : Socket) (text : String)
    (parsed : Option SocketOut) : HandlerResult :=
  -- Fast path for ping.
  if text = "null" then
    match sock.endpoint with
    | some Endpoint.lobby =>
      { app := app, socket := sock, sent := [(sock.sender, lobbyPingReply app)]
        published := [], close := none }
    | _ =>
      { app := app, socket := sock, sent := [(sock.sender, "0")]
        published := [], close := none }
  -- Limit message size.
  else if 1024 < rustStrLen text.toList then
    { app := app, socket := sock, sent := [], published := []
      close := some CloseCode.size }
  else
    match parsed with
    | some (SocketOut.ping l) =>
      let published :=
        match l with
        | some lagVal =>
          if 0 ≤ lagVal then
            -- on_ping of the by_id entry: publish Lag only when authenticated
            match lookupA app.by_id sock.socket_id with
            | some us =>
              match us.auth with
              | SocketAuth.authenticated uid => [LilaIn.lag uid lagVal.toNat]
              | _ => []
            | none => []
          else []  -- negative lag: log::warn only
        | none => []
      { app := app, socket := sock, sent := [(sock.sender, "0")]
        published := published, close := none }
    | some (SocketOut.startWatching d) =>
      d.foldl
        (fun r game =>
          let r2 := startWatchingOne r.app r.socket game
          { app := r2.app, socket := r2.socket, sent := r.sent ++ r2.sent
            published := r.published ++ r2.published, close := r.close })
        { app := app, socket := sock, sent := [], published := [], close := none }
    | some (SocketOut.moveLatency d) =>
      if d then
        if sock.sender ∈ app.watching_mlat then
          { app := app, socket := sock, sent := [], published := [], close := none }
        else
          { app := { app with watching_mlat := sock.sender :: app.watching_mlat }
            socket := sock, sent := [(sock.sender, mlatJson app.mlat)]
            published := [], close := none }
      else
        { app := { app with watching_mlat := app.watching_mlat.erase sock.sender }
          socket := sock, sent := [], published := [], close := none }
    | none =>
      { app := app, socket := sock, sent := [], published := []
        close := some CloseCode.protocol }

/-! ## `App::received` for backend `mlat` messages (`src/main.rs`) -/

structure ReceivedResult where
  app : App
  sent : List (Nat × String)
  published : List LilaIn
  deriving DecidableEq, Repr

/-- The `LilaOut::MoveLatency` arm of `App::received`: answer with the
saturated connection count, store the new latency, and fan the mlat frame
out to every sender in `watching_mlat`. -/
def received_move_latency (app : App) (m : Nat) : ReceivedResult :=
  let published := [LilaIn.connections (max 0 app.connection_count).toNat]
  let app := { app with mlat := m }
  { app := app
    sent := app.watching_mlat.map (fun s => (s, mlatJson m))
    published := published }

/-! ## Supporting lemmas -/

theorem char_toNat_ofNat_small (n : Nat) (h : n < 55296) : (Char.ofNat n).toNat = n := by
  have hv : n.isValidChar := Or.inl h
  rw [Char.ofNat, dif_pos hv]
  simp [Char.ofNatAux, Char.toNat, UInt32.toNat, BitVec.toNat_ofNatLt]

theorem accepted_char_lt (c : Char)
    (h : (is_ascii_alphanumeric c || c = '-' || c = '_') = true) : c.toNat < 128 := by
  simp only [is_ascii_alphanumeric, Bool.or_eq_true, Bool.and_eq_true,
    decide_eq_true_eq] at h
  rcases h with (((⟨h1, h2⟩ | ⟨h1, h2⟩) | ⟨h1, h2⟩) | rfl) | rfl
  · omega
  · omega
  · omega
  · decide
  · decide

theorem rustCharLen_accepted (c : Char)
    (h : (is_ascii_alphanumeric c || c = '-' || c = '_') = true) : rustCharLen c = 1 := by
  have hlt := accepted_char_lt c h
  simp [rustCharLen, hlt]

theorem rustStrLen_accepted (s : List Char)
    (h : ∀ c ∈ s, (is_ascii_alphanumeric c || c = '-' || c = '_') = true) :
    rustStrLen s = s.length := by
  induction s with
  | nil => rfl
  | cons c cs ih =>
    have hc := rustCharLen_accepted c (h c (List.mem_cons_self c cs))
    have hcs := ih (fun d hd => h d (List.mem_cons_of_mem c hd))
    simp only [rustStrLen, List.map_cons, List.sum_cons, List.length_cons] at *
    omega

theorem to_ascii_lower_valid (c : Char)
    (h : (is_ascii_alphanumeric c || c = '-' || c = '_') = true) :
    lower_char_ok (to_ascii_lower c) = true := by
  unfold to_ascii_lower
  by_cases hu : 65 ≤ c.toNat ∧ c.toNat ≤ 90
  · rw [if_pos hu]
    have ht : (Char.ofNat (c.toNat + 32)).toNat = c.toNat + 32 :=
      char_toNat_ofNat_small _ (by omega)
    simp only [lower_char_ok, Bool.or_eq_true, Bool.and_eq_true, decide_eq_true_eq, ht]
    exact Or.inl (Or.inl (Or.inl ⟨by omega, by omega⟩))
  · rw [if_neg hu]
    simp only [is_ascii_alphanumeric, Bool.or_eq_true, Bool.and_eq_true,
      decide_eq_true_eq] at h
    simp only [lower_char_ok, Bool.or_eq_true, Bool.and_eq_true, decide_eq_true_eq]
    rcases h with (((⟨h1, h2⟩ | ⟨h1, h2⟩) | ⟨h1, h2⟩) | rfl) | rfl
    · exact Or.inl (Or.inl (Or.inr ⟨h1, h2⟩))
    · exact absurd ⟨h1, h2⟩ hu
    · exact Or.inl (Or.inl (Or.inl ⟨h1, h2⟩))
    · exact Or.inl (Or.inr rfl)
    · exact Or.inr rfl

/-! ## Claims about `src/model.rs` and `src/analysis.rs` -/

/-- Claim C5, counterexample: `UserId::new` accepts the single uppercase
letter `"A"` (storing its lowercase form), although the claim requires
every character of the input to be a lowercase ASCII alphanumeric, `-`
or `_`, under which `"A"` would have to be rejected. -/
theorem userId_new_accepts_uppercase :
    UserId.new ['A'] = some ['a'] ∧ claimed_valid_C5 ['A'] = false := by
  decide

/-- Claim C5 (amended): `UserId::new` succeeds iff the input has between 1
and 30 characters, each an ASCII alphanumeric of either case, `-` or `_`;
the stored value is the lowercase normalization and always satisfies the
lowercase validity predicate (1–30 chars, lowercase alphanumerics plus
`-` `_`), so a constructed value is valid forever. -/
theorem userId_new_spec (s : List Char) :
    ((UserId.new s).isSome = true ↔
      (1 ≤ s.length ∧ s.length ≤ 30 ∧
        ∀ c ∈ s, (is_ascii_alphanumeric c || c = '-' || c = '_') = true)) ∧
    (∀ u, UserId.new s = some u → claimed_valid_C5 u = true) := by
  constructor
  · unfold UserId.new
    split
    case isTrue h =>
      simp only [Option.isSome_some, true_iff]
      simp only [Bool.and_eq_true, decide_eq_true_eq, ne_eq, List.all_eq_true] at h
      obtain ⟨⟨h0, h30⟩, hall⟩ := h
      have hlen := rustStrLen_accepted s hall
      exact ⟨by omega, by omega, hall⟩
    case isFalse h =>
      simp only [Option.isSome_none, Bool.false_eq_true, false_iff]
      rintro ⟨h1, h2, h3⟩
      apply h
      have hlen := rustStrLen_accepted s h3
      simp only [Bool.and_eq_true, decide_eq_true_eq, ne_eq, List.all_eq_true]
      exact ⟨⟨by omega, by omega⟩, h3⟩
  · intro u hu
    unfold UserId.new at hu
    split at hu
    case isTrue h =>
      injection hu with hu
      subst hu
      simp only [Bool.and_eq_true, decide_eq_true_eq, ne_eq, List.all_eq_true] at h
      obtain ⟨⟨h0, h30⟩, hall⟩ := h
      have hlen := rustStrLen_accepted s hall
      unfold claimed_valid_C5
      simp only [Bool.and_eq_true, decide_eq_true_eq, List.all_eq_true, List.length_map]
      refine ⟨⟨by omega, by omega⟩, ?_⟩
      intro c hc
      obtain ⟨d, hd, rfl⟩ := List.mem_map.1 hc
      exact to_ascii_lower_valid d (hall d hd)
    case isFalse => cases hu

/-- Closed witness for `userId_new_spec` at the inputs `"A-b"` and `"xy"`. -/
theorem userId_new_spec_witness :
    claimed_valid_C5 ['a', '-', 'b'] = true ∧ (UserId.new ['x', 'y']).isSome = true :=
  ⟨(userId_new_spec ['A', '-', 'b']).2 ['a', '-', 'b'] (by decide),
   (userId_new_spec ['x', 'y']).1.mpr ⟨by decide, by decide, by decide⟩⟩

/-- Claim C7: `piotr` maps A1 (0) to 'a', B4 (25) to 'z', C4 (26) to 'A',
D7 (51) to 'Z', E7 (52) to '0', F8 (61) to '9', G8 (62) to '!' and
H8 (63) to '?', as the source's own `test_piotr` asserts. -/
theorem piotr_named_squares :
    piotr 0 = 'a' ∧ piotr 25 = 'z' ∧ piotr 26 = 'A' ∧ piotr 51 = 'Z' ∧
    piotr 52 = '0' ∧ piotr 61 = '9' ∧ piotr 62 = '!' ∧ piotr 63 = '?' := by
  decide

/-- Claim C6, counterexample: the claimed ranges put 26 and 27 in the
lowercase segment and start the uppercase segment at 28, but the code
switches to uppercase at index 26: `piotr 26 = 'A'` and `piotr 28 = 'C'`,
not the claimed `'A' + (28 - 28) = 'A'`. -/
theorem piotr_breaks_claimed_ranges :
    piotr 26 = 'A' ∧ piotr_ranges_claimed 26 = Char.ofNat 123 ∧
    piotr 26 ≠ piotr_ranges_claimed 26 ∧
    piotr 28 = 'C' ∧ piotr_ranges_claimed 28 = 'A' ∧
    piotr 28 ≠ piotr_ranges_claimed 28 := by
  decide

/-- Claim C6 (amended): for square indices 0..63, `piotr` maps 0..25 to
`'a'..'z'`, 26..51 to `'A'..'Z'`, 52..61 to `'0'..'9'`, 62 to `'!'` and
63 to `'?'`, each range by offset from its start. -/
theorem piotr_range_table (sq : Fin 64) :
    (sq.val ≤ 25 → piotr sq.val = Char.ofNat (97 + sq.val)) ∧
    (26 ≤ sq.val → sq.val ≤ 51 → piotr sq.val = Char.ofNat (65 + (sq.val - 26))) ∧
    (52 ≤ sq.val → sq.val ≤ 61 → piotr sq.val = Char.ofNat (48 + (sq.val - 52))) ∧
    (sq.val = 62 → piotr sq.val = '!') ∧
    (sq.val = 63 → piotr sq.val = '?') := by
  revert sq
  decide

/-- Closed witness for `piotr_range_table`, one instance per range. -/
theorem piotr_range_table_witness :
    piotr 5 = Char.ofNat (97 + 5) ∧
    piotr 30 = Char.ofNat (65 + (30 - 26)) ∧
    piotr 55 = Char.ofNat (48 + (55 - 52)) ∧
    piotr 62 = '!' ∧ piotr 63 = '?' :=
  ⟨(piotr_range_table ⟨5, by omega⟩).1 (by decide),
   (piotr_range_table ⟨30, by omega⟩).2.1 (by decide) (by decide),
   (piotr_range_table ⟨55, by omega⟩).2.2.1 (by decide) (by decide),
   (piotr_range_table ⟨62, by omega⟩).2.2.2.1 rfl,
   (piotr_range_table ⟨63, by omega⟩).2.2.2.2 rfl⟩

/-- Claim C8: `uci_char_pair` always yields exactly 2 characters; a plain
move is two square ids (index + 35); a promotion is the origin square id
then `35 + 64 + rank·8 + file(dst)` with the claimed rank table; a drop is
the destination square id then `35 + 64 + 40 + rank` with the claimed rank
table; the null move is two `'#'` (code 35). -/
theorem uci_char_pair_spec (src dst : Fin 64) (r : Role) :
    uci_char_pair (Uci.normal src dst none) =
      [Char.ofNat (src.val + 35), Char.ofNat (dst.val + 35)] ∧
    (∀ k, promotion_rank_claimed r = some k →
      uci_char_pair (Uci.normal src dst (some r)) =
        [Char.ofNat (src.val + 35), Char.ofNat (35 + 64 + k * 8 + dst.val % 8)]) ∧
    (∀ k, drop_rank_claimed r = some k →
      uci_char_pair (Uci.put dst r) =
        [Char.ofNat (dst.val + 35), Char.ofNat (35 + 64 + 40 + k)]) ∧
    uci_char_pair Uci.null = ['#', '#'] ∧
    (∀ u : Uci, (uci_char_pair u).length = 2) := by
  refine ⟨rfl, ?_, ?_, rfl, ?_⟩
  · intro k hk
    cases r <;> simp only [promotion_rank_claimed, Option.some.injEq,
      reduceCtorEq] at hk <;> subst hk <;> rfl
  · intro k hk
    cases r <;> simp only [drop_rank_claimed, Option.some.injEq,
      reduceCtorEq] at hk <;> subst hk <;> rfl
  · intro u
    rcases u with ⟨a, b, _ | p⟩ | ⟨b, ro⟩ | _ <;> rfl

/-- Closed witness for `uci_char_pair_spec`: the b7c8q promotion (the
source's `"Te"` test vector), a pawn drop on a1 and the a1b1 plain move. -/
theorem uci_char_pair_spec_witness :
    uci_char_pair (Uci.normal ⟨49, by omega⟩ ⟨58, by omega⟩ (some Role.queen)) =
      [Char.ofNat (49 + 35), Char.ofNat (35 + 64 + 0 * 8 + 58 % 8)] ∧
    uci_char_pair (Uci.put ⟨0, by omega⟩ Role.pawn) =
      [Char.ofNat (0 + 35), Char.ofNat (35 + 64 + 40 + 4)] ∧
    uci_char_pair (Uci.normal ⟨0, by omega⟩ ⟨1, by omega⟩ none) =
      [Char.ofNat (0 + 35), Char.ofNat (1 + 35)] :=
  ⟨(uci_char_pair_spec ⟨49, by omega⟩ ⟨58, by omega⟩ Role.queen).2.1 0 rfl,
   (uci_char_pair_spec ⟨0, by omega⟩ ⟨0, by omega⟩ Role.pawn).2.2.1 4 rfl,
   (uci_char_pair_spec ⟨0, by omega⟩ ⟨1, by omega⟩ Role.queen).1⟩

/-- The EPD of the standard starting position, and a one-entry stand-in
opening database containing it. -/
def startEPD : List Char :=
  "rnbqkbnr/pppppppp/8/8/8/8/PPPPPPPP/RNBQKBNR w KQkq -".toList

def dbC4 : List (List Char × Opening) :=
  [(startEPD, { eco := "A00", name := "Start position" })]

/-- Claim C4, counterexample: with the request variant `fromPosition` —
not one of the four values the claim allows — `GetOpening::respond`
still returns `Some`, because `From<VariantKey>` collapses `fromPosition`
(and `chess960`) into `Standard`, which is opening-sensible. -/
theorem getOpening_fromPosition_returns_some :
    GetOpening.respond dbC4
      { variant := some VariantKey.fromPosition, path := "p"
        fen := "rnbqkbnr/pppppppp/8/8/8/8/PPPPPPPP/RNBQKBNR w KQkq - 0 1".toList } =
      some { path := "p", opening := { eco := "A00", name := "Start position" } } := by
  decide

/-- Claim C4 (amended): `GetOpening::respond` returns `Some` exactly when
the request's variant (defaulted to standard when absent) is one of
standard, fromPosition, chess960 (the latter two collapse to standard),
crazyhouse, threeCheck or kingOfTheHill, and the EPD (first four
space-separated fields) of the fen is a key of the opening database. -/
theorem getOpening_respond_some_iff (db : List (List Char × Opening))
    (v : Option VariantKey) (path : String) (fen : List Char) :
    (GetOpening.respond db { variant := v, path := path, fen := fen }).isSome = true ↔
      ((v.getD VariantKey.standard) ∈
         [VariantKey.standard, VariantKey.fromPosition, VariantKey.chess960,
          VariantKey.crazyhouse, VariantKey.threeCheck, VariantKey.kingOfTheHill] ∧
       (lookupA db (epd_of_fen fen)).isSome = true) := by
  rcases v with _ | k
  · simp [GetOpening.respond, Variant.ofKey, Variant.is_opening_sensible, lookup_opening]
  · cases k <;>
      simp [GetOpening.respond, Variant.ofKey, Variant.is_opening_sensible, lookup_opening]

/-! ## Claims about the dispatch engine (`src/main.rs`) -/

/-- A shared state holding one socket (token 7, socket id 1, sri
`"abcdefghijkl"`, authenticated as `"alice"`, flag `simul`, watching game
`"gameaaaa"`, subscribed to move-latency updates) in every index. -/
def closeApp : App :=
  { App.new with
    by_sri := [("abcdefghijkl", [7])]
    by_game := [("gameaaaa", [7])]
    by_user := [("alice", [7])]
    by_id := [(1,
      { sender := 7, sri := "abcdefghijkl", endpoint := Endpoint.site
        auth := SocketAuth.authenticated "alice"
        pending_notified := false, pending_following_onlines := false })]
    flags_simul := [7]
    watching_mlat := [7]
    connection_count := 1 }

/-- The connection handler of that socket at close time. -/
def closeSock : Socket :=
  { socket_id := 1, sender := 7, endpoint := some Endpoint.site
    watching := ["gameaaaa"], flag := some Flag.simul, sri := some "abcdefghijkl" }

/-- Claim C1: evaluating `on_close` on a socket present in every index
shows that `by_sri`, `by_id`, `by_user`, `by_game` and the flag set are
cleaned (publishing `disconnect alice` and `unwatch gameaaaa`), but the
sender is still in `watching_mlat` afterwards — `on_close` never removes
it, contradicting the claim's (and §4.7's) cleanup list. -/
theorem on_close_leaves_watching_mlat :
    (on_close closeApp closeSock).app.by_sri = [] ∧
    (on_close closeApp closeSock).app.by_id = [] ∧
    (on_close closeApp closeSock).app.by_user = [] ∧
    (on_close closeApp closeSock).app.by_game = [] ∧
    (on_close closeApp closeSock).app.flags_simul = [] ∧
    (on_close closeApp closeSock).app.connection_count = 0 ∧
    (on_close closeApp closeSock).published =
      [LilaIn.disconnect "alice", LilaIn.unwatch "gameaaaa"] ∧
    (on_close closeApp closeSock).app.watching_mlat = [7] := by
  decide

/-- Claim C2: processing one game id `g` of a `startWatching` frame is
idempotent per socket: if the socket already watches `g` the state is
unchanged and nothing is sent or published; for a new `g` the cached fen
frame is sent exactly when the cache holds `g`, the sender is appended to
`by_game[g]`, and `watch g` is published exactly when `by_game[g]` was
absent (the 0→1 transition). -/
theorem startWatching_idempotent (app : App) (sock : Socket) (game : String) :
    (game ∈ sock.watching →
      startWatchingOne app sock game =
        { app := app, socket := sock, sent := [], published := [], close := none }) ∧
    (game ∉ sock.watching →
      ((startWatchingOne app sock game).sent =
         (match lookupA app.watched_games game with
          | some wg => [(sock.sender, fenJson game wg.fen wg.lm)]
          | none => []) ∧
       lookupA (startWatchingOne app sock game).app.by_game game =
         some ((lookupA app.by_game game).getD [] ++ [sock.sender]) ∧
       ((startWatchingOne app sock game).published = [LilaIn.watch game] ↔
         lookupA app.by_game game = none) ∧
       (startWatchingOne app sock game).socket.watching = game :: sock.watching)) := by
  constructor
  · intro h
    simp [startWatchingOne, h]
  · intro h
    unfold startWatchingOne
    rw [if_neg h]
    cases hbg : lookupA app.by_game game <;>
      cases hwg : lookupA app.watched_games game <;>
        simp [hbg, hwg, lookupA_insertA_self]

/-- State for the `startWatching` witness: game `"gameaaaa"` is in the
fen cache but has no watchers yet. -/
def appC2 : App :=
  { App.new with watched_games := [("gameaaaa", { fen := "FEN", lm := "e2e4" })] }

def sockC2 : Socket :=
  { socket_id := 3, sender := 11, endpoint := some Endpoint.site
    watching := [], flag := none, sri := some "sriC2" }

def sockC2w : Socket := { sockC2 with watching := ["gameaaaa"] }

/-- Closed witness for `startWatching_idempotent`: a repeated watch is a
no-op; a fresh watch sends the cached fen, adds the watcher and publishes
`watch` on the 0→1 transition. -/
theorem startWatching_idempotent_witness :
    startWatchingOne appC2 sockC2w "gameaaaa" =
      { app := appC2, socket := sockC2w, sent := [], published := [], close := none } ∧
    ((startWatchingOne appC2 sockC2 "gameaaaa").sent =
       [(11, fenJson "gameaaaa" "FEN" "e2e4")] ∧
     lookupA (startWatchingOne appC2 sockC2 "gameaaaa").app.by_game "gameaaaa" =
       some [11] ∧
     ((startWatchingOne appC2 sockC2 "gameaaaa").published =
        [LilaIn.watch "gameaaaa"] ↔ lookupA appC2.by_game "gameaaaa" = none) ∧
     (startWatchingOne appC2 sockC2 "gameaaaa").socket.watching = ["gameaaaa"]) :=
  ⟨(startWatching_idempotent appC2 sockC2w "gameaaaa").1 (by decide),
   (startWatching_idempotent appC2 sockC2 "gameaaaa").2 (by decide)⟩

/-- A lobby-endpoint socket and a state with nonzero lobby counters. -/
def lobbyApp : App := { App.new with round_count := 3, member_count := 4 }

def lobbySock : Socket :=
  { socket_id := 2, sender := 9, endpoint := some Endpoint.lobby
    watching := [], flag := none, sri := some "sriLobby" }

/-- Claim C3, counterexample: on the lobby endpoint the `"null"` ping gets
the counters JSON, but the parsed `{"t":"p"}` ping is answered with `"0"`,
not the counters JSON — the claimed reply shape does not hold for both
forms of ping. -/
theorem json_ping_at_lobby_replies_zero :
    (on_message lobbyApp lobbySock "\x7b\"t\":\"p\"\x7d"
        (some (SocketOut.ping none))).sent = [(9, "0")] ∧
    (on_message lobbyApp lobbySock "null" none).sent =
      [(9, "\x7b\"t\":\"n\",\"r\":3,\"d\":4\x7d")] ∧
    ("0" : String) ≠ "\x7b\"t\":\"n\",\"r\":3,\"d\":4\x7d" := by
  decide

/-- Claim C3 (amended): each form of ping produces exactly one reply and
does not close the socket; the `"null"` fast path replies with the lobby
counters JSON on the lobby endpoint and `"0"` otherwise, while a frame
parsed as the ping object is always answered with `"0"`, on every
endpoint. -/
theorem ping_reply_shape (app : App) (sock : Socket) (text : String)
    (l : Option Int) (p : Option SocketOut)
    (h1 : text ≠ "null") (h2 : rustStrLen text.toList ≤ 1024) :
    ((on_message app sock "null" p).sent =
       [(sock.sender,
         match sock.endpoint with
         | some Endpoint.lobby => lobbyPingReply app
         | _ => "0")] ∧
     (on_message app sock "null" p).close = none) ∧
    ((on_message app sock text (some (SocketOut.ping l))).sent =
       [(sock.sender, "0")] ∧
     (on_message app sock text (some (SocketOut.ping l))).close = none) := by
  constructor
  · unfold on_message
    rw [if_pos rfl]
    rcases sock.endpoint with _ | e
    · exact ⟨rfl, rfl⟩
    · cases e <;> exact ⟨rfl, rfl⟩
  · unfold on_message
    rw [if_neg h1, if_neg (by omega)]
    exact ⟨rfl, rfl⟩

/-- Closed witness for `ping_reply_shape` at the lobby socket. -/
theorem ping_reply_shape_witness :
    (((on_message lobbyApp lobbySock "null" none).sent =
        [(9, lobbyPingReply lobbyApp)] ∧
      (on_message lobbyApp lobbySock "null" none).close = none) ∧
     ((on_message lobbyApp lobbySock "\x7b\"t\":\"p\",\"l\":5\x7d"
          (some (SocketOut.ping (some 5)))).sent = [(9, "0")] ∧
      (on_message lobbyApp lobbySock "\x7b\"t\":\"p\",\"l\":5\x7d"
          (some (SocketOut.ping (some 5)))).close = none)) :=
  ping_reply_shape lobbyApp lobbySock "\x7b\"t\":\"p\",\"l\":5\x7d"
    (some 5) none (by decide) (by decide)

/-- Claim C9: on a backend `mlat m` message the gateway publishes
`connections n` with `n = max(0, connection_count)` (saturating the
tolerated transient underflow of the relaxed counter), stores `m` as the
new mlat value, and sends the `{"t":"mlat","d":m}` frame to every sender
in `watching_mlat`; in particular a negative counter is reported as 0. -/
theorem received_move_latency_spec (app : App) (m : Nat) :
    (received_move_latency app m).published =
      [LilaIn.connections (max 0 app.connection_count).toNat] ∧
    (received_move_latency app m).app.mlat = m ∧
    (received_move_latency app m).sent =
      app.watching_mlat.map (fun s => (s, mlatJson m)) ∧
    (received_move_latency app m).app.watching_mlat = app.watching_mlat ∧
    (app.connection_count ≤ 0 →
      (received_move_latency app m).published = [LilaIn.connections 0]) := by
  refine ⟨rfl, rfl, rfl, rfl, ?_⟩
  intro h
  show [LilaIn.connections (max 0 app.connection_count).toNat] = [LilaIn.connections 0]
  rw [max_eq_left h]
  rfl

/-- A state whose relaxed connection counter has transiently underflowed
and with one mlat watcher. -/
def appC9 : App := { App.new with connection_count := -5, watching_mlat := [21] }

/-- Closed witness for `received_move_latency_spec`: the underflowed
counter is reported as `connections 0` and the watcher receives the mlat
frame. -/
theorem received_move_latency_spec_witness :
    (received_move_latency appC9 120).published = [LilaIn.connections 0] ∧
    (received_move_latency appC9 120).sent = [(21, mlatJson 120)] ∧
    (received_move_latency appC9 120).app.mlat = 120 :=
  ⟨(received_move_latency_spec appC9 120).2.2.2.2 (by decide),
   (received_move_latency_spec appC9 120).2.2.1,
   (received_move_latency_spec appC9 120).2.1⟩

/-- Claim C10: `App::new` initializes `mlat` to `u32::max_value()`, so a
socket whose `moveLat {d:true}` frame arrives while `mlat` is still the
initial value and which is not yet in `watching_mlat` is inserted into
`watching_mlat` and immediately receives `{"t":"mlat","d":4294967295}`. -/
theorem moveLat_initial_mlat (app : App) (sock : Socket) (text : String)
    (h0 : text ≠ "null") (h1 : rustStrLen text.toList ≤ 1024)
    (h2 : app.mlat = App.new.mlat) (h3 : sock.sender ∉ app.watching_mlat) :
    App.new.mlat = 4294967295 ∧
    sock.sender ∈
      (on_message app sock text (some (SocketOut.moveLatency true))).app.watching_mlat ∧
    (on_message app sock text (some (SocketOut.moveLatency true))).sent =
      [(sock.sender, "\x7b\"t\":\"mlat\",\"d\":4294967295\x7d")] := by
  refine ⟨rfl, ?_, ?_⟩ <;>
    (unfold on_message
     rw [if_neg h0, if_neg (by omega)])
  · rw [if_neg h3]
    exact List.mem_cons_self _ _
  · rw [if_neg h3]
    show [(sock.sender, mlatJson app.mlat)] = _
    rw [h2]
    rfl

/-- A fresh socket for the `moveLat` witness. -/
def sockC10 : Socket :=
  { socket_id := 4, sender := 13, endpoint := some Endpoint.site
    watching := [], flag := none, sri := some "sriC10" }

/-- Closed witness for `moveLat_initial_mlat` on the freshly created
state. -/
theorem moveLat_initial_mlat_witness :
    App.new.mlat = 4294967295 ∧
    (13 : Nat) ∈
      (on_message App.new sockC10 "x"
        (some (SocketOut.moveLatency true))).app.watching_mlat ∧
    (on_message App.new sockC10 "x" (some (SocketOut.moveLatency true))).sent =
      [(13, "\x7b\"t\":\"mlat\",\"d\":4294967295\x7d")] :=
  moveLat_initial_mlat App.new sockC10 "x" (by decide) (by decide) rfl (by decide)

end LilaWs
